import Mathlib

/-
  Verification of the macro-indicator dashboard core (src/app.py).

  Shallow embedding conventions:
  * Calendar dates are triples of naturals (year, month, day); pandas
    Timestamps are used by the source only for ordering, period grouping
    and formatting, all of which are modelled explicitly below.
  * Python floats are modelled as exact rationals (ℚ); a missing value
    (NaN/None) is `Option.none`.
  * pandas string methods (.str.upper/.str.lower/.str.strip) and the
    relevant fragment of `pd.to_datetime` string parsing are modelled by
    structurally recursive functions over the character list of a string.
  * The fallible loader and the file system are passed to the cache model
    explicitly: `getDf` receives the current file mtime (`none` = file
    absent) and the outcome the loader would produce if invoked, and
    additionally reports whether the loader was invoked.
-/

namespace MacroApp

/-- A calendar date: year, month (1..12), day (1..31). -/
structure Date where
  y : Nat
  m : Nat
  d : Nat
deriving DecidableEq, Repr

/-- Gregorian leap-year test. -/
def isLeap (y : Nat) : Bool :=
  y % 4 == 0 && (y % 100 != 0 || y % 400 == 0)

/-- Number of days in a calendar month. -/
def daysInMonth (y m : Nat) : Nat :=
  if m = 2 then (if isLeap y then 29 else 28)
  else if m = 4 ∨ m = 6 ∨ m = 9 ∨ m = 11 then 30
  else 31

/-- A structurally well-formed calendar date. -/
def ValidDate (dt : Date) : Prop :=
  1 ≤ dt.m ∧ dt.m ≤ 12 ∧ 1 ≤ dt.d ∧ dt.d ≤ daysInMonth dt.y dt.m

instance (dt : Date) : Decidable (ValidDate dt) := by
  unfold ValidDate; infer_instance

/-- Chronological order on dates (the order pandas DatetimeIndex uses). -/
def dateLe (a b : Date) : Bool :=
  decide (a.y < b.y) ||
    (decide (a.y = b.y) &&
      (decide (a.m < b.m) || (decide (a.m = b.m) && decide (a.d ≤ b.d))))

-- ---------------------------------------------------------------------
-- Python string primitives (ASCII fragment used by the Freq/Method cells)
-- ---------------------------------------------------------------------

/-- Python `str.upper` on the ASCII fragment. -/
def pyUpper (s : String) : String := String.mk (s.data.map Char.toUpper)

/-- Python `str.lower` on the ASCII fragment. -/
def pyLower (s : String) : String := String.mk (s.data.map Char.toLower)

/-- Python `str.strip`: drop whitespace from both ends. -/
def pyStrip (s : String) : String :=
  String.mk (((s.data.dropWhile Char.isWhitespace).reverse.dropWhile
    Char.isWhitespace).reverse)

/-- Split a character list at every occurrence of `c`. -/
def splitCharAux (c : Char) : List Char → List Char → List (List Char)
  | [], acc => [acc.reverse]
  | x :: xs, acc =>
    if x = c then acc.reverse :: splitCharAux c xs []
    else splitCharAux c xs (x :: acc)

/-- Value of a non-empty all-digit character list, else `none`. -/
def digitsVal (l : List Char) : Option Nat :=
  if l.isEmpty then none
  else l.foldl (fun acc ch =>
    match acc with
    | none => none
    | some n => if ch.isDigit then some (n * 10 + (ch.toNat - 48)) else none)
    (some 0)

/-- Model of the `pd.to_datetime` string parse used by the period filter,
restricted to ISO `YYYY-MM-DD` inputs; every other string fails, which in
the source raises and is swallowed by `_apply_period_filter`. -/
def parseDate (s : String) : Option Date :=
  match splitCharAux '-' s.data [] with
  | [ys, ms, ds] =>
    match digitsVal ys, digitsVal ms, digitsVal ds with
    | some yv, some mv, some dv =>
      if 1 ≤ mv ∧ mv ≤ 12 ∧ 1 ≤ dv ∧ dv ≤ daysInMonth yv mv then
        some ⟨yv, mv, dv⟩
      else none
    | _, _, _ => none
  | _ => none

-- ---------------------------------------------------------------------
-- Output formatting (src/app.py `_format_date`, `_round_val`)
-- ---------------------------------------------------------------------

/-- Two-digit zero-padded numeral (strftime `%d` / `%m`). -/
def pad2 (n : Nat) : String :=
  if n < 10 then "0" ++ toString n else toString n

/-- Four-digit zero-padded numeral (strftime `%Y`). -/
def pad4 (n : Nat) : String :=
  if n < 10 then "000" ++ toString n
  else if n < 100 then "00" ++ toString n
  else if n < 1000 then "0" ++ toString n
  else toString n

/-- `_format_date`: render a date as `DD.MM.YYYY`. -/
def formatDate (dt : Date) : String :=
  pad2 dt.d ++ "." ++ pad2 dt.m ++ "." ++ pad4 dt.y

/-- ISO date rendering `YYYY-MM-DD` used by `_build_series`. -/
def isoDate (dt : Date) : String :=
  pad4 dt.y ++ "-" ++ pad2 dt.m ++ "-" ++ pad2 dt.d

/-- Left-pad a numeral string with zeros to `n` characters. -/
def padZeros (n : Nat) (s : String) : String :=
  if s.length < n then String.mk (List.replicate (n - s.length) '0') ++ s
  else s

/-- Fixed-point rendering of a rational with `prec` decimal digits,
rounding ties to even, as Python's `f"{x:.1f}"` / `f"{x:.2f}"` do on the
(idealised, exactly represented) float value.  Integer arithmetic is done
on the reduced numerator/denominator. -/
def fmtFixed (x : ℚ) (prec : Nat) : String :=
  let p := 10 ^ prec
  let a := x.num.natAbs * p
  let den := x.den
  let q := a / den
  let r := a % den
  let n := if 2 * r < den then q
           else if den < 2 * r then q + 1
           else if q % 2 = 0 then q else q + 1
  let core := toString (n / p) ++ "." ++ padZeros prec (toString (n % p))
  if x.num < 0 && decide (n ≠ 0) then "-" ++ core else core

/-- `_round_val`: empty string for a missing value, one decimal digit when
the magnitude is at least 1, two digits otherwise. -/
def roundVal (x : Option ℚ) : String :=
  match x with
  | none => ""
  | some v => if 1 ≤ |v| then fmtFixed v 1 else fmtFixed v 2

-- ---------------------------------------------------------------------
-- Data model: normalized rows and the loader (`DataCache._read_excel`)
-- ---------------------------------------------------------------------

/-- A normalized dataset row (after `_read_excel`'s type coercions). -/
structure Row where
  date : Date
  name : String
  aliasName : String
  value : Option ℚ
  unit : Option String
  freq : String
  method : String
deriving DecidableEq, Repr

/-- A raw spreadsheet row, before Freq/Method normalization.  `none` in
`freq`/`method`/`unit` models a missing (NaN) cell.  Column-name synonym
mapping and the Alias-column default have already been applied. -/
structure RawRow where
  date : Date
  name : String
  aliasName : String
  value : Option ℚ
  unit : Option String
  freq : Option String
  method : Option String
deriving DecidableEq, Repr

/-- pandas `astype(str)` renders a missing cell as the string `"nan"`. -/
def pyStr (c : Option String) : String :=
  match c with
  | none => "nan"
  | some t => t

/-- The Freq dictionary `{M, Q, A, A-DEC ↦ A}` followed by `fillna("M")`:
every unmapped value becomes `"M"`. -/
def freqMap (u : String) : String :=
  if u = "M" then "M"
  else if u = "Q" then "Q"
  else if u = "A" then "A"
  else if u = "A-DEC" then "A"
  else "M"

/-- Freq normalization: `astype(str).str.upper().str.strip()` then the
dictionary with its missing-value default. -/
def normFreq (c : Option String) : String :=
  freqMap (pyStrip (pyUpper (pyStr c)))

/-- The Method dictionary `{avg, average, mean ↦ avg; eop, end, last ↦
eop}` followed by `fillna("avg")`. -/
def methodMap (u : String) : String :=
  if u = "avg" ∨ u = "average" ∨ u = "mean" then "avg"
  else if u = "eop" ∨ u = "end" ∨ u = "last" then "eop"
  else "avg"

/-- Method normalization: `astype(str).str.lower().str.strip()` then the
dictionary with its missing-value default. -/
def normMethod (c : Option String) : String :=
  methodMap (pyStrip (pyLower (pyStr c)))

/-- Normalize one raw row. -/
def normalizeRow (r : RawRow) : Row :=
  { date := r.date, name := r.name, aliasName := r.aliasName, value := r.value,
    unit := r.unit, freq := normFreq r.freq, method := normMethod r.method }

/-- Lexicographic strict order on character lists. -/
def charsLt : List Char → List Char → Bool
  | [], [] => false
  | [], _ :: _ => true
  | _ :: _, [] => false
  | a :: as, b :: bs =>
    if a < b then true else if b < a then false else charsLt as bs

/-- Lexicographic strict order on strings. -/
def strLt (a b : String) : Bool := charsLt a.data b.data

/-- Sort key of `df.sort_values(["Alias", "Date"])`. -/
def rowLe (a b : Row) : Bool :=
  strLt a.aliasName b.aliasName || (decide (a.aliasName = b.aliasName) && dateLe a.date b.date)

/-- Insertion step of the sort on rows. -/
def insertRow (a : Row) : List Row → List Row
  | [] => [a]
  | b :: t => if rowLe a b then a :: b :: t else b :: insertRow a t

/-- Sort rows by (Alias, Date) ascending, as the loader does. -/
def sortRows : List Row → List Row
  | [] => []
  | a :: t => insertRow a (sortRows t)

/-- `_read_excel` after column-name resolution: normalize Freq and Method
of every row and sort by (Alias, Date). -/
def loadDataset (raws : List RawRow) : List Row :=
  sortRows (raws.map normalizeRow)

-- ---------------------------------------------------------------------
-- The cache (`DataCache.get_df`)
-- ---------------------------------------------------------------------

/-- The mutable state of `DataCache`: last-seen mtime and cached frame. -/
structure CacheState where
  mtime : ℚ
  df : Option (List Row)
deriving DecidableEq, Repr

/-- Initial cache state (`__init__`: mtime 0.0, no frame). -/
def initCache : CacheState := ⟨0, none⟩

/-- One call to `DataCache.get_df`, with the file system and the loader
made explicit: `fsMtime` is what `os.path.getmtime` would report (`none`
models `FileNotFoundError`), `load` is the outcome `_read_excel` would
produce if invoked.  Returns the call's outcome, the state after the
call, and whether the loader was invoked. -/
def getDf (st : CacheState) (fsMtime : Option ℚ)
    (load : Except String (List Row)) :
    Except String (List Row) × CacheState × Bool :=
  match fsMtime with
  | none => (.error "FileNotFoundError", st, false)
  | some m =>
    match st.df with
    | some d =>
      if m = st.mtime then (.ok d, st, false)
      else
        match load with
        | .error e => (.error e, st, true)
        | .ok nd => (.ok nd, ⟨m, some nd⟩, true)
    | none =>
      match load with
      | .error e => (.error e, st, true)
      | .ok nd => (.ok nd, ⟨m, some nd⟩, true)

-- ---------------------------------------------------------------------
-- The resampler (`_resample_series`)
-- ---------------------------------------------------------------------

/-- The three pandas resampling rules the source can reach: `"M"`, `"Q"`
and `"A-DEC"` (year ending in December). -/
inductive Rule where
  | M
  | Q
  | A
deriving DecidableEq, Repr

/-- `FREQ_RULE.get(freq, "M")`: `"M" ↦ M`, `"Q" ↦ Q`, `"A" ↦ A-DEC`, and
every other frequency string falls back to the monthly rule. -/
def ruleOf (freq : String) : Rule :=
  if freq = "M" then .M
  else if freq = "Q" then .Q
  else if freq = "A" then .A
  else .M

/-- Index of the period (month, quarter, or December-ending year) that a
date belongs to.  Consecutive periods have consecutive keys. -/
def periodKey (r : Rule) (dt : Date) : Nat :=
  match r with
  | .M => dt.y * 12 + (dt.m - 1)
  | .Q => dt.y * 4 + (dt.m - 1) / 3
  | .A => dt.y

/-- First calendar day of the period with key `k`. -/
def periodStart (r : Rule) (k : Nat) : Date :=
  match r with
  | .M => ⟨k / 12, k % 12 + 1, 1⟩
  | .Q => ⟨k / 4, 3 * (k % 4) + 1, 1⟩
  | .A => ⟨k, 1, 1⟩

/-- Last calendar day of the period with key `k` (the label pandas gives
the resampled observation). -/
def periodEnd (r : Rule) (k : Nat) : Date :=
  match r with
  | .M => ⟨k / 12, k % 12 + 1, daysInMonth (k / 12) (k % 12 + 1)⟩
  | .Q => ⟨k / 4, 3 * (k % 4) + 3, daysInMonth (k / 4) (3 * (k % 4) + 3)⟩
  | .A => ⟨k, 12, 31⟩

/-- A date-indexed series: the (Date, Value) pairs of one indicator. -/
abbrev Series := List (Date × Option ℚ)

/-- Mean of a list of rationals; `none` on the empty list, as pandas
`mean()` yields NaN for a period with no non-missing observations. -/
def meanOpt (vals : List ℚ) : Option ℚ :=
  match vals with
  | [] => none
  | _ => some (vals.sum / (vals.length : ℚ))

/-- Period aggregation: `.last()` for `"eop"` (last non-missing value of
the period, `none` if there is none), `.mean()` for everything else. -/
def aggregate (method : String) (vals : List ℚ) : Option ℚ :=
  if method = "eop" then vals.getLast? else meanOpt vals

/-- The non-missing values of `s` falling in the period with key `k`,
in series order. -/
def periodValues (r : Rule) (k : Nat) (s : Series) : List ℚ :=
  (s.filter (fun p => periodKey r p.1 == k)).filterMap Prod.snd

/-- Smallest period key present in the series (0 for the empty series). -/
def resampleKey0 (s : Series) (freq : String) : Nat :=
  match s with
  | [] => 0
  | p :: rest =>
    rest.foldl (fun a q => min a (periodKey (ruleOf freq) q.1))
      (periodKey (ruleOf freq) p.1)

/-- Largest period key present in the series (0 for the empty series). -/
def resampleKey1 (s : Series) (freq : String) : Nat :=
  match s with
  | [] => 0
  | p :: rest =>
    rest.foldl (fun a q => max a (periodKey (ruleOf freq) q.1))
      (periodKey (ruleOf freq) p.1)

/-- `_resample_series`: group the series into consecutive calendar periods
at the rule `FREQ_RULE.get(freq, "M")`, from the first populated period to
the last, labelling each with its period-end date and aggregating with
`.last()` (method `"eop"`) or `.mean()` (otherwise).  Periods inside the
range with no observations are emitted with a missing value. -/
def resample (s : Series) (freq method : String) : Series :=
  if s.isEmpty then []
  else
    (List.range (resampleKey1 s freq - resampleKey0 s freq + 1)).map
      (fun i =>
        (periodEnd (ruleOf freq) (resampleKey0 s freq + i),
         aggregate method (periodValues (ruleOf freq) (resampleKey0 s freq + i) s)))

-- ---------------------------------------------------------------------
-- Period filter (`_apply_period_filter`)
-- ---------------------------------------------------------------------

/-- The `date_from` half of `_apply_period_filter`: keep observations at
or after the bound.  An absent, empty (falsy) or unparsable bound imposes
no restriction: the parse error the source would hit is caught and
ignored. -/
def boundFrom (s : Series) (dfrom : Option String) : Series :=
  match dfrom with
  | none => s
  | some str =>
    if str = "" then s
    else
      match parseDate str with
      | none => s
      | some b => s.filter (fun p => dateLe b p.1)

/-- The `date_to` half of `_apply_period_filter`, symmetric to
`boundFrom`. -/
def boundTo (s : Series) (dto : Option String) : Series :=
  match dto with
  | none => s
  | some str =>
    if str = "" then s
    else
      match parseDate str with
      | none => s
      | some b => s.filter (fun p => dateLe p.1 b)

/-- `_apply_period_filter`: the two guarded filters applied in sequence. -/
def applyPeriodFilter (s : Series) (dfrom dto : Option String) : Series :=
  boundTo (boundFrom s dfrom) dto

-- ---------------------------------------------------------------------
-- Table and series builders (`_build_table`, `_build_series`)
-- ---------------------------------------------------------------------

/-- `NATIVE_FREQ_LOCK`: the static frequency-lock table. -/
def NATIVE_FREQ_LOCK (a : String) : Option String :=
  if a = "Инфляция, % м/м" then some "M"
  else if a = "ВВП, % г/г" then some "A"
  else none

/-- First non-missing Unit cell of the selected rows
(`sub["Unit"].dropna().iloc[0]`), or `""` if all are missing. -/
def firstUnit : List Row → String
  | [] => ""
  | r :: t =>
    match r.unit with
    | some u => u
    | none => firstUnit t

/-- `_alias_unit_method`: the display label (taken from the Alias column of
the first selected row), the first non-missing unit, and the method of the
first selected row; `(alias, "", "avg")` when no row matches. -/
def aliasUnitMethod (df : List Row) (a : String) : String × String × String :=
  match df.filter (fun r => r.aliasName == a) with
  | [] => (a, "", "avg")
  | r0 :: rest => (r0.aliasName, firstUnit (r0 :: rest), r0.method)

/-- Insertion step of the date sort on a series. -/
def insertByDate (p : Date × Option ℚ) : Series → Series
  | [] => [p]
  | q :: t => if dateLe p.1 q.1 then p :: q :: t else q :: insertByDate p t

/-- Sort a series by date ascending (`.sort_index()`). -/
def sortByDate : Series → Series
  | [] => []
  | p :: t => insertByDate p (sortByDate t)

/-- The shared select–lock–resample–filter core of `_build_table` and
`_build_series`, producing the final filtered series together with the
native frequency, the effective frequency, and the (name, unit, method)
triple. -/
def buildCore (df : List Row) (a freqView : String)
    (dfrom dto : Option String) (r0 : Row) (rest : List Row) :
    Series × String × String × (String × String × String) :=
  let native := r0.freq
  let freqUse :=
    match NATIVE_FREQ_LOCK a with
    | some l => l
    | none => if freqView = "AUTO" then native else freqView
  let num := aliasUnitMethod df a
  let s0 := sortByDate ((r0 :: rest).map (fun r => (r.date, r.value)))
  let s1 := if freqUse ≠ native then resample s0 freqUse num.2.2 else s0
  let s2 := applyPeriodFilter s1 dfrom dto
  (s2, native, freqUse, num)

/-- `_build_table`: returns (columns, rows, total, native frequency). -/
def buildTable (df : List Row) (a freqView : String)
    (dfrom dto : Option String) :
    List String × List (List String) × Nat × String :=
  match df.filter (fun r => r.aliasName == a) with
  | [] => (["Дата", a], [], 0, "M")
  | r0 :: rest =>
    let core := buildCore df a freqView dfrom dto r0 rest
    let s2 := core.1
    let native := core.2.1
    let name := core.2.2.2.1
    let unit := core.2.2.2.2.1
    let method := core.2.2.2.2.2
    let methodText := if method = "avg" then "в среднем за период" else "на конец периода"
    let col2 :=
      if unit ≠ "" then name ++ " (" ++ methodText ++ ", " ++ unit ++ ")"
      else name ++ " (" ++ methodText ++ ")"
    let rows := s2.map (fun p => [formatDate p.1, roundVal p.2])
    (["Дата", col2], rows, rows.length, native)

/-- `_build_series`: returns (ISO x labels, y values with explicit missing
markers, metadata dictionary). -/
def buildSeries (df : List Row) (a freqView : String)
    (dfrom dto : Option String) :
    List String × List (Option ℚ) × List (String × String) :=
  match df.filter (fun r => r.aliasName == a) with
  | [] => ([], [], [("native", "M")])
  | r0 :: rest =>
    let core := buildCore df a freqView dfrom dto r0 rest
    let s2 := core.1
    let native := core.2.1
    let freqUse := core.2.2.1
    let name := core.2.2.2.1
    let unit := core.2.2.2.2.1
    let method := core.2.2.2.2.2
    (s2.map (fun p => isoDate p.1), s2.map (fun p => p.2),
     [("native", native), ("freq_used", freqUse), ("name", name),
      ("unit", unit), ("method", method)])

-- ---------------------------------------------------------------------
-- Concrete datasets used by scenarios and witnesses
-- ---------------------------------------------------------------------

/-- The spec's USD/RUB scenario dataset: monthly averages 90.0 at
2024-01-15 and 92.0 at 2024-02-15. -/
def c1Dataset : List Row :=
  [{ date := ⟨2024, 1, 15⟩, name := "USD/RUB", aliasName := "USD/RUB",
     value := some 90, unit := none, freq := "M", method := "avg" },
   { date := ⟨2024, 2, 15⟩, name := "USD/RUB", aliasName := "USD/RUB",
     value := some 92, unit := none, freq := "M", method := "avg" }]

/-- A monthly average dataset whose quarterly view distinguishes
filter-after-resampling (mean 2.0) from filter-before (mean 3.0). -/
def c6Dataset : List Row :=
  [{ date := ⟨2024, 1, 15⟩, name := "X", aliasName := "X",
     value := some 1, unit := none, freq := "M", method := "avg" },
   { date := ⟨2024, 2, 15⟩, name := "X", aliasName := "X",
     value := some 3, unit := none, freq := "M", method := "avg" }]

/-- The raw (Date, Value) series of `c6Dataset`. -/
def c6Series : Series := [(⟨2024, 1, 15⟩, some 1), (⟨2024, 2, 15⟩, some 3)]

/-- A one-row dataset whose display Name differs from its Alias. -/
def df9 : List Row :=
  [{ date := ⟨2024, 1, 15⟩, name := "Доллар США", aliasName := "USD/RUB",
     value := some 90, unit := none, freq := "M", method := "avg" }]

/-- A one-row dataset for a frequency-locked alias. -/
def lockDf : List Row :=
  [{ date := ⟨2024, 1, 31⟩, name := "Инфляция, % м/м",
     aliasName := "Инфляция, % м/м", value := none, unit := none,
     freq := "M", method := "avg" }]

/-- A plain row used in cache witnesses. -/
def cacheRow : Row :=
  { date := ⟨2024, 1, 31⟩, name := "N", aliasName := "N", value := none,
    unit := none, freq := "M", method := "avg" }

/-- A raw row used in the loader witness. -/
def wRaw : RawRow :=
  { date := ⟨2024, 1, 31⟩, name := "N", aliasName := "N", value := none,
    unit := none, freq := some " a-dec ", method := some "LAST" }

/-- A sorted quarterly-demo series with one missing observation. -/
def wS2 : Series :=
  [(⟨2024, 1, 10⟩, some 5), (⟨2024, 2, 20⟩, none), (⟨2024, 2, 25⟩, some 7)]

/-- A tiny demo series for filter witnesses. -/
def demoSeries : Series := [(⟨2024, 1, 1⟩, some 1)]

-- ---------------------------------------------------------------------
-- Helper lemmas: dates and period bounds
-- ---------------------------------------------------------------------

theorem daysInMonth_pos (y m : Nat) : 1 ≤ daysInMonth y m := by
  unfold daysInMonth
  split_ifs <;> omega

theorem daysInMonth_le_31 (y m : Nat) : daysInMonth y m ≤ 31 := by
  unfold daysInMonth
  split_ifs <;> omega

theorem dateLe_iff (a b : Date) :
    dateLe a b = true ↔
      (a.y < b.y ∨ (a.y = b.y ∧ (a.m < b.m ∨ (a.m = b.m ∧ a.d ≤ b.d)))) := by
  simp [dateLe]

theorem dateLe_refl (a : Date) : dateLe a a = true := by
  simp [dateLe]

/-- A valid date lies in the period with key `k` exactly when it lies
between that period's first and last calendar day. -/
theorem periodKey_eq_iff (r : Rule) (k : Nat) (dt : Date) (hv : ValidDate dt) :
    periodKey r dt = k ↔
      (dateLe (periodStart r k) dt = true ∧ dateLe dt (periodEnd r k) = true) := by
  obtain ⟨h1, h2, h3, h4⟩ := hv
  cases r with
  | M =>
    simp only [periodKey, periodStart, periodEnd, dateLe_iff]
    constructor
    · intro hk
      have hy : k / 12 = dt.y := by omega
      have hm : k % 12 + 1 = dt.m := by omega
      rw [hy, hm]
      omega
    · rintro ⟨ha, hb⟩
      omega
  | Q =>
    simp only [periodKey, periodStart, periodEnd, dateLe_iff]
    constructor
    · intro hk
      have hy : k / 4 = dt.y := by omega
      have hq : k % 4 = (dt.m - 1) / 3 := by omega
      refine ⟨?_, ?_⟩
      · omega
      · by_cases hm3 : dt.m = 3 * (k % 4) + 3
        · have hD : daysInMonth (k / 4) (3 * (k % 4) + 3) = daysInMonth dt.y dt.m := by
            rw [hy, hm3]
          omega
        · omega
    · rintro ⟨ha, hb⟩
      omega
  | A =>
    simp only [periodKey, periodStart, periodEnd, dateLe_iff]
    have h31 := daysInMonth_le_31 dt.y dt.m
    constructor
    · intro hk
      omega
    · rintro ⟨ha, hb⟩
      omega

-- ---------------------------------------------------------------------
-- Helper lemmas: aggregation and resampling
-- ---------------------------------------------------------------------

theorem aggregate_avg (vals : List ℚ) : aggregate "avg" vals = meanOpt vals := by
  simp [aggregate]

theorem aggregate_eop (vals : List ℚ) : aggregate "eop" vals = vals.getLast? := by
  simp [aggregate]

/-- Under valid dates, selecting a period by key is selecting it by its
calendar bounds. -/
theorem periodValues_eq_bounds (r : Rule) (k : Nat) (s : Series)
    (hv : ∀ p ∈ s, ValidDate p.1) :
    periodValues r k s =
      (s.filter (fun p =>
        dateLe (periodStart r k) p.1 && dateLe p.1 (periodEnd r k))).filterMap
        Prod.snd := by
  unfold periodValues
  congr 1
  refine List.filter_congr ?_
  intro p hp
  refine Bool.eq_iff_iff.mpr ?_
  rw [beq_iff_eq, Bool.and_eq_true]
  exact periodKey_eq_iff r k p.1 (hv p hp)

/-- Unfolding of `resample` on a non-empty series. -/
theorem resample_eq_map (s : Series) (freq method : String) (hne : s ≠ []) :
    resample s freq method =
      (List.range (resampleKey1 s freq - resampleKey0 s freq + 1)).map
        (fun i =>
          (periodEnd (ruleOf freq) (resampleKey0 s freq + i),
           aggregate method
             (periodValues (ruleOf freq) (resampleKey0 s freq + i) s))) := by
  unfold resample
  rw [if_neg (by simpa [List.isEmpty_iff] using hne)]

/-- In a chronologically sorted list, if the last non-missing value is
`some x`, then `x` is attained at an element whose date is at least the
date of every non-missing element. -/
theorem getLast_filterMap_spec (l : Series) (x : ℚ)
    (hs : l.Pairwise (fun a b => dateLe a.1 b.1 = true))
    (h : (l.filterMap Prod.snd).getLast? = some x) :
    ∃ p ∈ l, p.2 = some x ∧
      ∀ q ∈ l, q.2.isSome = true → dateLe q.1 p.1 = true := by
  induction l using List.reverseRecOn with
  | nil => simp at h
  | append_singleton t a ih =>
    have hpa := List.pairwise_append.mp hs
    have hall : ∀ q ∈ t, dateLe q.1 a.1 = true := by
      intro q hq
      exact hpa.2.2 q hq a (List.mem_singleton_self a)
    obtain ⟨ad, av⟩ := a
    rw [List.filterMap_append] at h
    cases av with
    | some v =>
      simp only [List.filterMap_cons, List.filterMap_nil] at h
      rw [List.getLast?_concat] at h
      refine ⟨(ad, some v), by simp, by rw [Option.some_inj.mp h], ?_⟩
      intro q hq _
      rcases List.mem_append.mp hq with hql | hqa
      · exact hall q hql
      · rw [List.mem_singleton.mp hqa]
        exact dateLe_refl ad
    | none =>
      simp only [List.filterMap_cons, List.filterMap_nil, List.append_nil] at h
      obtain ⟨p, hp, hpx, hlast⟩ := ih hpa.1 h
      refine ⟨p, List.mem_append_left _ hp, hpx, ?_⟩
      intro q hq hqs
      rcases List.mem_append.mp hq with hql | hqa
      · exact hlast q hql hqs
      · rw [List.mem_singleton.mp hqa] at hqs
        simp at hqs

-- ---------------------------------------------------------------------
-- Helper lemmas: sorting, selection, fail-open filtering
-- ---------------------------------------------------------------------

theorem mem_insertRow (a b : Row) (l : List Row) :
    b ∈ insertRow a l ↔ b = a ∨ b ∈ l := by
  induction l with
  | nil => simp [insertRow]
  | cons c t ih =>
    unfold insertRow
    split_ifs
    · simp
    · simp only [List.mem_cons, ih]
      tauto

theorem mem_sortRows (b : Row) (l : List Row) : b ∈ sortRows l ↔ b ∈ l := by
  induction l with
  | nil => simp [sortRows]
  | cons c t ih =>
    unfold sortRows
    rw [mem_insertRow, ih, List.mem_cons]

/-- The label `_alias_unit_method` returns is always the requested alias
itself: it is read from the Alias column of the first matching row. -/
theorem aliasUnitMethod_fst (df : List Row) (a : String) :
    (aliasUnitMethod df a).1 = a := by
  unfold aliasUnitMethod
  cases hf : df.filter (fun r => r.aliasName == a) with
  | nil => rfl
  | cons r0 rest =>
    have hr0 : r0 ∈ df.filter (fun r => r.aliasName == a) := by
      rw [hf]; exact List.mem_cons_self r0 rest
    exact beq_iff_eq.mp (List.mem_filter.mp hr0).2

/-- A lower bound that is empty or unparsable imposes no restriction. -/
theorem boundFrom_skip (s : Series) (str : String)
    (h : str = "" ∨ parseDate str = none) : boundFrom s (some str) = s := by
  simp only [boundFrom]
  rcases h with h | h
  · rw [if_pos h]
  · by_cases he : str = ""
    · rw [if_pos he]
    · rw [if_neg he, h]

/-- An upper bound that is empty or unparsable imposes no restriction. -/
theorem boundTo_skip (s : Series) (str : String)
    (h : str = "" ∨ parseDate str = none) : boundTo s (some str) = s := by
  simp only [boundTo]
  rcases h with h | h
  · rw [if_pos h]
  · by_cases he : str = ""
    · rw [if_pos he]
    · rw [if_neg he, h]

/-- A parsable, non-empty lower bound filters by `b ≤ date`. -/
theorem boundFrom_parsed (s : Series) (str : String) (b : Date)
    (h : parseDate str = some b) :
    boundFrom s (some str) = s.filter (fun p => dateLe b p.1) := by
  have he : ¬str = "" := by
    intro hstr
    rw [hstr] at h
    exact Option.noConfusion ((show parseDate "" = none by decide) ▸ h)
  simp only [boundFrom]
  rw [if_neg he, h]

/-- A parsable, non-empty upper bound filters by `date ≤ b`. -/
theorem boundTo_parsed (s : Series) (str : String) (b : Date)
    (h : parseDate str = some b) :
    boundTo s (some str) = s.filter (fun p => dateLe p.1 b) := by
  have he : ¬str = "" := by
    intro hstr
    rw [hstr] at h
    exact Option.noConfusion ((show parseDate "" = none by decide) ▸ h)
  simp only [boundTo]
  rw [if_neg he, h]

/-- Under a frequency lock, the shared core does not depend on the
requested view frequency. -/
theorem buildCore_locked_indep (df : List Row) (a l fv1 fv2 : String)
    (dfrom dto : Option String) (r0 : Row) (rest : List Row)
    (h : NATIVE_FREQ_LOCK a = some l) :
    buildCore df a fv1 dfrom dto r0 rest = buildCore df a fv2 dfrom dto r0 rest := by
  unfold buildCore
  rw [h]

/-- Under a frequency lock, the effective frequency is the locked one. -/
theorem buildCore_locked_freqUse (df : List Row) (a l fv : String)
    (dfrom dto : Option String) (r0 : Row) (rest : List Row)
    (h : NATIVE_FREQ_LOCK a = some l) :
    (buildCore df a fv dfrom dto r0 rest).2.2.1 = l := by
  simp only [buildCore, h]

-- ---------------------------------------------------------------------
-- Claim theorems
-- ---------------------------------------------------------------------

/-- C3: for every alias in the Frequency Lock Table, both `_build_table`
and `_build_series` use the locked frequency as the effective frequency
and ignore the caller's requested view frequency entirely (any two view
frequencies, "AUTO" included, give identical output). -/
theorem c3_frequency_lock_overrides_view (df : List Row) (a l fv1 fv2 : String)
    (dfrom dto : Option String) (h : NATIVE_FREQ_LOCK a = some l) :
    buildTable df a fv1 dfrom dto = buildTable df a fv2 dfrom dto ∧
    buildSeries df a fv1 dfrom dto = buildSeries df a fv2 dfrom dto ∧
    (df.filter (fun r => r.aliasName == a) ≠ [] →
      ("freq_used", l) ∈ (buildSeries df a fv1 dfrom dto).2.2) := by
  refine ⟨?_, ?_, ?_⟩
  · unfold buildTable
    cases hf : df.filter (fun r => r.aliasName == a) with
    | nil => rfl
    | cons r0 rest =>
      simp only [buildCore_locked_indep df a l fv1 fv2 dfrom dto r0 rest h]
  · unfold buildSeries
    cases hf : df.filter (fun r => r.aliasName == a) with
    | nil => rfl
    | cons r0 rest =>
      simp only [buildCore_locked_indep df a l fv1 fv2 dfrom dto r0 rest h]
  · intro hne
    unfold buildSeries
    cases hf : df.filter (fun r => r.aliasName == a) with
    | nil => exact absurd hf hne
    | cons r0 rest =>
      simp only [buildCore_locked_freqUse df a l fv1 dfrom dto r0 rest h,
        List.mem_cons]
      tauto

/-- C3 witness: the locked alias "Инфляция, % м/м" gives the same table
for view frequencies "Q" and "A". -/
theorem c3_witness :
    buildTable lockDf "Инфляция, % м/м" "Q" none none =
      buildTable lockDf "Инфляция, % м/м" "A" none none :=
  (c3_frequency_lock_overrides_view lockDf "Инфляция, % м/м" "M" "Q" "A"
    none none (by decide)).1

/-- C4: when a frame is cached and the file mtime equals the cached mtime,
`get_df` returns the cached frame without invoking the loader; the loader
is invoked exactly when the mtime differs or nothing is cached yet; and a
successful reload replaces the cached frame and mtime wholesale. -/
theorem c4_cache_policy (st : CacheState) (m : ℚ) (d nd : List Row)
    (ld : Except String (List Row)) :
    (st.df = some d → st.mtime = m →
      getDf st (some m) ld = (.ok d, st, false)) ∧
    ((getDf st (some m) ld).2.2 = true ↔ (st.df = none ∨ m ≠ st.mtime)) ∧
    (st.df = none ∨ m ≠ st.mtime →
      getDf st (some m) (.ok nd) = (.ok nd, ⟨m, some nd⟩, true)) := by
  refine ⟨?_, ?_, ?_⟩
  · intro h1 h2
    simp only [getDf, h1]
    rw [if_pos h2.symm]
  · cases hdf : st.df with
    | none => cases ld <;> simp [getDf, hdf]
    | some d0 =>
      by_cases hm : m = st.mtime
      · simp [getDf, hdf, hm]
      · cases ld <;> simp [getDf, hdf, hm]
  · intro h
    cases hdf : st.df with
    | none => simp [getDf, hdf]
    | some d0 =>
      have hm : ¬m = st.mtime := by
        rcases h with h | h
        · rw [hdf] at h
          exact absurd h (by simp)
        · exact h
      simp [getDf, hdf, hm]

/-- C4 witness: with mtime 5 cached and file mtime 5, the cached frame is
returned, the state is unchanged and the loader is not invoked. -/
theorem c4_witness :
    getDf ⟨5, some [cacheRow]⟩ (some 5) (.error "io") =
      (.ok [cacheRow], ⟨5, some [cacheRow]⟩, false) :=
  (c4_cache_policy ⟨5, some [cacheRow]⟩ 5 [cacheRow] [] (.error "io")).1 rfl rfl

/-- C10: if a reload is triggered and the loader fails, the error
propagates and the cached frame and mtime are left exactly as they were. -/
theorem c10_failed_reload_preserves_cache (st : CacheState) (m : ℚ) (e : String)
    (h : st.df = none ∨ m ≠ st.mtime) :
    getDf st (some m) (.error e) = (.error e, st, true) := by
  cases hdf : st.df with
  | none => simp [getDf, hdf]
  | some d0 =>
    have hm : ¬m = st.mtime := by
      rcases h with h | h
      · rw [hdf] at h
        exact absurd h (by simp)
      · exact h
    simp [getDf, hdf, hm]

/-- C10 witness: a failing first load on the initial cache state. -/
theorem c10_witness :
    getDf initCache (some 1) (.error "boom") = (.error "boom", initCache, true) :=
  c10_failed_reload_preserves_cache initCache 1 "boom" (Or.inl rfl)

/-- C5: an alias matching no row yields the empty table (total 0, native
frequency "M") and the empty series with metadata {native: "M"}; neither
raises. -/
theorem c5_unknown_alias_empty (df : List Row) (a fv : String)
    (dfrom dto : Option String) (h : ∀ r ∈ df, r.aliasName ≠ a) :
    buildTable df a fv dfrom dto = (["Дата", a], [], 0, "M") ∧
    buildSeries df a fv dfrom dto = ([], [], [("native", "M")]) := by
  have hf : df.filter (fun r => r.aliasName == a) = [] := by
    rw [List.filter_eq_nil_iff]
    intro r hr
    simpa using h r hr
  constructor
  · unfold buildTable
    rw [hf]
  · unfold buildSeries
    rw [hf]

/-- C5 witness: querying `df9` for an alias it does not contain. -/
theorem c5_witness :
    buildTable df9 "нет такого" "AUTO" none none =
      (["Дата", "нет такого"], [], 0, "M") :=
  (c5_unknown_alias_empty df9 "нет такого" "AUTO" none none (by decide)).1

/-- C7: an absent, empty or unparsable date bound imposes no restriction
on its side and raises no error: `"not-a-date"` fails to parse, a failed
bound is identical to no bound on that side (for either side), and the
full table/series pipeline returns the series unchanged by the bad bound. -/
theorem c7_malformed_bound_fail_open :
    parseDate "not-a-date" = none ∧
    (∀ (s : Series) (str : String) (dto : Option String),
      str = "" ∨ parseDate str = none →
      applyPeriodFilter s (some str) dto = applyPeriodFilter s none dto) ∧
    (∀ (s : Series) (dfrom : Option String) (str : String),
      str = "" ∨ parseDate str = none →
      applyPeriodFilter s dfrom (some str) = applyPeriodFilter s dfrom none) ∧
    (∀ (df : List Row) (a fv : String) (dto : Option String),
      buildTable df a fv (some "not-a-date") dto = buildTable df a fv none dto ∧
      buildSeries df a fv (some "not-a-date") dto = buildSeries df a fv none dto) := by
  have hnad : parseDate "not-a-date" = none := by decide
  have hfrom : ∀ (s : Series) (str : String) (dto : Option String),
      str = "" ∨ parseDate str = none →
      applyPeriodFilter s (some str) dto = applyPeriodFilter s none dto := by
    intro s str dto h
    unfold applyPeriodFilter
    rw [boundFrom_skip s str h]
    rfl
  have hcore : ∀ (df : List Row) (a fv : String) (dto : Option String)
      (r0 : Row) (rest : List Row),
      buildCore df a fv (some "not-a-date") dto r0 rest =
        buildCore df a fv none dto r0 rest := by
    intro df a fv dto r0 rest
    unfold buildCore
    simp only [show ∀ (s : Series) (dto2 : Option String),
      applyPeriodFilter s (some "not-a-date") dto2 = applyPeriodFilter s none dto2
      from fun s dto2 => hfrom s "not-a-date" dto2 (Or.inr hnad)]
  refine ⟨hnad, hfrom, ?_, ?_⟩
  · intro s dfrom str h
    unfold applyPeriodFilter
    rw [boundTo_skip _ str h]
    rfl
  · intro df a fv dto
    constructor
    · unfold buildTable
      cases hf : df.filter (fun r => r.aliasName == a) with
      | nil => rfl
      | cons r0 rest => simp only [hcore df a fv dto r0 rest]
    · unfold buildSeries
      cases hf : df.filter (fun r => r.aliasName == a) with
      | nil => rfl
      | cons r0 rest => simp only [hcore df a fv dto r0 rest]

/-- C7 witness: the malformed lower bound "not-a-date" leaves a concrete
series exactly as unrestricted as no lower bound. -/
theorem c7_witness :
    applyPeriodFilter demoSeries (some "not-a-date") none =
      applyPeriodFilter demoSeries none none :=
  c7_malformed_bound_fail_open.2.1 demoSeries "not-a-date" none
    (Or.inr (by decide))

/-- Every normalized Freq is one of M, Q, A. -/
theorem freqMap_cases (u : String) :
    freqMap u = "M" ∨ freqMap u = "Q" ∨ freqMap u = "A" := by
  unfold freqMap
  split_ifs <;> simp

theorem normFreq_cases (c : Option String) :
    normFreq c = "M" ∨ normFreq c = "Q" ∨ normFreq c = "A" :=
  freqMap_cases _

/-- Every normalized Method is avg or eop. -/
theorem methodMap_cases (u : String) :
    methodMap u = "avg" ∨ methodMap u = "eop" := by
  unfold methodMap
  split_ifs <;> simp

theorem normMethod_cases (c : Option String) :
    normMethod c = "avg" ∨ normMethod c = "eop" :=
  methodMap_cases _

/-- C8: the loader normalizes Freq by uppercasing, trimming and mapping
{M, Q, A, A-DEC ↦ A} with unmapped and missing cells defaulting to "M",
and Method by lowercasing, trimming and mapping {avg, average, mean ↦ avg;
eop, end, last ↦ eop} defaulting to "avg"; hence every loaded row has
Freq in {M, Q, A} and Method in {avg, eop}. -/
theorem c8_enum_normalization :
    (∀ c : Option String, normFreq c = "M" ∨ normFreq c = "Q" ∨ normFreq c = "A") ∧
    (∀ c : Option String, normMethod c = "avg" ∨ normMethod c = "eop") ∧
    (∀ (raws : List RawRow) (r : Row), r ∈ loadDataset raws →
      (r.freq = "M" ∨ r.freq = "Q" ∨ r.freq = "A") ∧
      (r.method = "avg" ∨ r.method = "eop")) ∧
    normFreq (some " a-dec ") = "A" ∧ normFreq (some "q") = "Q" ∧
    normFreq (some "Q") = "Q" ∧ normFreq (some "A-DEC") = "A" ∧
    normFreq none = "M" ∧ normFreq (some "weird") = "M" ∧
    normMethod (some " Average ") = "avg" ∧ normMethod (some "mean") = "avg" ∧
    normMethod (some "LAST") = "eop" ∧ normMethod (some "end") = "eop" ∧
    normMethod none = "avg" ∧ normMethod (some "xyz") = "avg" := by
  refine ⟨normFreq_cases, normMethod_cases, ?_, ?_, ?_, ?_, ?_, ?_, ?_, ?_,
    ?_, ?_, ?_, ?_, ?_⟩
  · intro raws r hr
    rw [loadDataset, mem_sortRows] at hr
    obtain ⟨raw, _, rfl⟩ := List.mem_map.mp hr
    exact ⟨normFreq_cases raw.freq, normMethod_cases raw.method⟩
  all_goals decide

/-- C8 witness: the normalized form of a concrete raw row is in the
enumerated ranges. -/
theorem c8_witness :
    ((normalizeRow wRaw).freq = "M" ∨ (normalizeRow wRaw).freq = "Q" ∨
      (normalizeRow wRaw).freq = "A") ∧
    ((normalizeRow wRaw).method = "avg" ∨ (normalizeRow wRaw).method = "eop") :=
  c8_enum_normalization.2.2.1 [wRaw] (normalizeRow wRaw) (by decide)

/-- C1: resampling with Method = Average labels each consecutive period
with its period-end date and values it with the arithmetic mean of the
non-missing inputs whose dates fall within that period's calendar bounds;
a period with zero non-missing inputs gets a missing value (`meanOpt []`
is `none`, not zero and not an error).  In particular the USD/RUB monthly
scenario viewed Quarterly yields exactly one Q1-2024 row valued 91.0,
formatted "91.0". -/
theorem c1_average_resampling (s : Series) (freq : String)
    (hne : s ≠ []) (hv : ∀ p ∈ s, ValidDate p.1) :
    resample s freq "avg" =
      (List.range (resampleKey1 s freq - resampleKey0 s freq + 1)).map
        (fun i =>
          (periodEnd (ruleOf freq) (resampleKey0 s freq + i),
           meanOpt ((s.filter (fun p =>
             dateLe (periodStart (ruleOf freq) (resampleKey0 s freq + i)) p.1 &&
             dateLe p.1 (periodEnd (ruleOf freq) (resampleKey0 s freq + i)))).filterMap
             Prod.snd))) ∧
    meanOpt [] = none ∧
    buildTable c1Dataset "USD/RUB" "Q" none none =
      (["Дата", "USD/RUB (в среднем за период)"], [["31.03.2024", "91.0"]], 1, "M") := by
  refine ⟨?_, rfl, by with_unfolding_all rfl⟩
  rw [resample_eq_map s freq "avg" hne]
  refine List.map_congr_left ?_
  intro i _
  rw [aggregate_avg, periodValues_eq_bounds _ _ _ hv]

/-- C1 witness: the theorem applied to the USD/RUB scenario series. -/
theorem c1_witness :
    buildTable c1Dataset "USD/RUB" "Q" none none =
      (["Дата", "USD/RUB (в среднем за период)"], [["31.03.2024", "91.0"]], 1, "M") :=
  (c1_average_resampling [(⟨2024, 1, 15⟩, some 90), (⟨2024, 2, 15⟩, some 92)]
    "Q" (by decide) (by decide)).2.2

/-- C2: resampling with Method = EndOfPeriod labels each consecutive
period with its period-end date and values it with the last non-missing
input within that period's calendar bounds (a period with none gets a
missing value); on a date-sorted series that last value is attained at an
observation whose date is at least the date of every non-missing
observation of the period, i.e. it is the chronologically last one. -/
theorem c2_eop_resampling (s : Series) (freq : String)
    (hne : s ≠ []) (hv : ∀ p ∈ s, ValidDate p.1)
    (hs : s.Pairwise (fun a b => dateLe a.1 b.1 = true)) :
    resample s freq "eop" =
      (List.range (resampleKey1 s freq - resampleKey0 s freq + 1)).map
        (fun i =>
          (periodEnd (ruleOf freq) (resampleKey0 s freq + i),
           ((s.filter (fun p =>
             dateLe (periodStart (ruleOf freq) (resampleKey0 s freq + i)) p.1 &&
             dateLe p.1 (periodEnd (ruleOf freq) (resampleKey0 s freq + i)))).filterMap
             Prod.snd).getLast?)) ∧
    (∀ (k : Nat) (x : ℚ),
      ((s.filter (fun p => dateLe (periodStart (ruleOf freq) k) p.1 &&
          dateLe p.1 (periodEnd (ruleOf freq) k))).filterMap Prod.snd).getLast? =
        some x →
      ∃ p ∈ s.filter (fun p => dateLe (periodStart (ruleOf freq) k) p.1 &&
          dateLe p.1 (periodEnd (ruleOf freq) k)),
        p.2 = some x ∧
        ∀ q ∈ s.filter (fun p => dateLe (periodStart (ruleOf freq) k) p.1 &&
            dateLe p.1 (periodEnd (ruleOf freq) k)),
          q.2.isSome = true → dateLe q.1 p.1 = true) := by
  constructor
  · rw [resample_eq_map s freq "eop" hne]
    refine List.map_congr_left ?_
    intro i _
    rw [aggregate_eop, periodValues_eq_bounds _ _ _ hv]
  · intro k x h
    exact getLast_filterMap_spec _ x (hs.sublist (List.filter_sublist s)) h

/-- C2 witness: on a sorted quarter with observations 5 (Jan 10), missing
(Feb 20) and 7 (Feb 25), the end-of-period value is 7. -/
theorem c2_witness :
    resample wS2 "Q" "eop" = [(⟨2024, 3, 31⟩, some 7)] :=
  ((c2_eop_resampling wS2 "Q" (by decide) (by decide) (by decide)).1).trans
    (by with_unfolding_all rfl)

/-- C6: with two parsable bounds the period filter retains exactly the
observations with `date_from ≤ date ≤ date_to`, inclusive at both ends;
and the filter acts on the series after resampling, not on the raw rows:
on `c6Dataset` (monthly 1.0 in January, 3.0 in February, quarterly
average view, lower bound 2024-02-01) the pipeline reports the quarter
mean 2.0 computed from both rows, whereas filtering the raw rows first
would have produced 3.0. -/
theorem c6_inclusive_filter_after_resample (s : Series) (fs ts : String)
    (b1 b2 : Date) (h1 : parseDate fs = some b1) (h2 : parseDate ts = some b2) :
    applyPeriodFilter s (some fs) (some ts) =
      s.filter (fun p => dateLe b1 p.1 && dateLe p.1 b2) ∧
    (buildTable c6Dataset "X" "Q" (some "2024-02-01") none).2.1 =
      [["31.03.2024", "2.0"]] ∧
    (buildSeries c6Dataset "X" "Q" (some "2024-02-01") none).2.1 = [some 2] ∧
    resample (applyPeriodFilter c6Series (some "2024-02-01") none) "Q" "avg" =
      [(⟨2024, 3, 31⟩, some 3)] := by
  refine ⟨?_, by with_unfolding_all rfl, by with_unfolding_all rfl,
    by with_unfolding_all rfl⟩
  unfold applyPeriodFilter
  rw [boundFrom_parsed s fs b1 h1, boundTo_parsed _ ts b2 h2,
    List.filter_filter]
  refine List.filter_congr ?_
  intro p _
  exact Bool.and_comm _ _

/-- C6 witness: the quarterly table filtered from 2024-02-01 keeps the
Q1 row with the full-quarter mean 2.0. -/
theorem c6_witness :
    (buildTable c6Dataset "X" "Q" (some "2024-02-01") none).2.1 =
      [["31.03.2024", "2.0"]] :=
  (c6_inclusive_filter_after_resample [] "2024-01-01" "2024-12-31"
    ⟨2024, 1, 1⟩ ⟨2024, 12, 31⟩ (by decide) (by decide)).2.1

/-- C9 counterexample: on a dataset whose display Name is "Доллар США"
while the grouping Alias is "USD/RUB", the table's second column header
and the series metadata name embed the Alias, not the Name — refuting the
claim that they equal the Name value. -/
theorem c9_counterexample :
    df9.map Row.name = ["Доллар США"] ∧
    (buildTable df9 "USD/RUB" "AUTO" none none).1 =
      ["Дата", "USD/RUB (в среднем за период)"] ∧
    ("name", "USD/RUB") ∈ (buildSeries df9 "USD/RUB" "AUTO" none none).2.2 ∧
    ("name", "Доллар США") ∉ (buildSeries df9 "USD/RUB" "AUTO" none none).2.2 ∧
    "USD/RUB (в среднем за период)" ≠ "Доллар США (в среднем за период)" := by
  with_unfolding_all decide

/-- C9 (amended): the indicator name embedded in the table header and
returned as the series metadata name is the Alias grouping key of the
indicator's rows (which equals the requested alias), not the Name display
value. -/
theorem c9_amended_name_is_alias (df : List Row) (a fv : String)
    (dfrom dto : Option String) :
    (aliasUnitMethod df a).1 = a ∧
    (("name", a) ∈ (buildSeries df a fv dfrom dto).2.2 ∨
      (buildSeries df a fv dfrom dto).2.2 = [("native", "M")]) ∧
    (df.filter (fun r => r.aliasName == a) ≠ [] →
      (buildTable df a fv dfrom dto).1 =
        ["Дата",
         if (aliasUnitMethod df a).2.1 ≠ "" then
           a ++ " (" ++ (if (aliasUnitMethod df a).2.2 = "avg" then
             "в среднем за период" else "на конец периода") ++ ", " ++
             (aliasUnitMethod df a).2.1 ++ ")"
         else
           a ++ " (" ++ (if (aliasUnitMethod df a).2.2 = "avg" then
             "в среднем за период" else "на конец периода") ++ ")"]) := by
  refine ⟨aliasUnitMethod_fst df a, ?_, ?_⟩
  · unfold buildSeries
    cases hf : df.filter (fun r => r.aliasName == a) with
    | nil => exact Or.inr rfl
    | cons r0 rest =>
      refine Or.inl ?_
      simp only [buildCore, aliasUnitMethod_fst df a, List.mem_cons]
      tauto
  · intro hne
    unfold buildTable
    cases hf : df.filter (fun r => r.aliasName == a) with
    | nil => exact absurd hf hne
    | cons r0 rest =>
      simp only [buildCore, aliasUnitMethod_fst df a]

/-- C9 witness: on the Name-vs-Alias dataset the label is the alias. -/
theorem c9_witness : (aliasUnitMethod df9 "USD/RUB").1 = "USD/RUB" :=
  (c9_amended_name_is_alias df9 "USD/RUB" "AUTO" none none).1

end MacroApp
